import Mathlib

/-! app-config: typed values, sections and parse diagnostics.

A shallow embedding of `src/config.hh`.

* C++ `std::string` is `String`; a `char` is one `Char`, lengths and positions
  count characters.
* `int64_t` values are integers in `[-2^63, 2^63)`; conversions to narrower
  integer types are written out with `% 2 ^ w`.
* `double` is `Float`; the only floating conversion embedded is the one to
  `double` itself, which is the identity.
* `size_t` is 64 bits wide and the `difference_type` of a string iterator is
  the signed 64-bit integer type; a `size_t` passed to iterator arithmetic is
  converted to it modulo `2 ^ 64`. A `std::string` has fewer than `2 ^ 63`
  characters.
* A call has an `Outcome`: a returned value, a thrown exception, or undefined
  behaviour (reading a union member that is not the active one, a downcast to
  a class the object is not, iterator arithmetic leaving the text).
-/

namespace AppConfig

/-! ## Exceptions (config.hh 20-54) -/

/-- The three exception classes of the header, each a `std::runtime_error`
carrying its `what()` string. -/
inductive config_exception where
  | config_io_error (what : String)
  | config_key_error (what : String)
  | config_parse_exception (what : String)
  deriving DecidableEq, Repr

/-- Result of evaluating a C++ expression: a value, a thrown exception, or
undefined behaviour. -/
inductive Outcome (α : Type) where
  | value (a : α)
  | raised (e : config_exception)
  | undefined

/-- A `std::string::iterator` (`_Iter`): the string it points into and the
position of the character it designates (`pos = text.length` is `end()`). -/
structure _Iter where
  text : String
  pos : Nat
  deriving DecidableEq, Repr

/-- The implicit conversion of a `size_t` argument to the iterator's
`difference_type`, the signed 64-bit integer type: the value modulo `2 ^ 64`,
read in two's complement, so that sizes from `2 ^ 63` up become negative. -/
def to_difference_type (n : Nat) : Int :=
  let r := (n : Int) % (2 : Int) ^ 64
  if (2 : Int) ^ 63 ≤ r then r - (2 : Int) ^ 64 else r

/-- Iterator arithmetic `iter - n` with `n` a `size_t` (config.hh 51): `n` is
converted to `difference_type` and the iterator moves back by that signed
offset. Defined only while the result stays inside the string. -/
def _Iter.sub (it : _Iter) (n : Nat) : Option _Iter :=
  let target : Int := (it.pos : Int) - to_difference_type n
  if 0 ≤ target ∧ target ≤ (it.text.length : Int) then
    some { text := it.text, pos := target.toNat }
  else none

/-- Iterator arithmetic `iter + n` with `n` a `size_t` (config.hh 51): `n` is
converted to `difference_type` and the iterator moves forward by that signed
offset. Defined only while the result stays inside the string (`end()`
included). -/
def _Iter.add (it : _Iter) (n : Nat) : Option _Iter :=
  let target : Int := (it.pos : Int) + to_difference_type n
  if 0 ≤ target ∧ target ≤ (it.text.length : Int) then
    some { text := it.text, pos := target.toNat }
  else none

/-- The range constructor `std::string(first, last)`: the characters of the range `[first, last)`. -/
def string_of_range (first last : _Iter) : Option String :=
  if first.text = last.text ∧ first.pos ≤ last.pos ∧ last.pos ≤ last.text.length then
    some (String.mk ((first.text.data.drop first.pos).take (last.pos - first.pos)))
  else none

/-- The function `config_parse_exception::parse_error` (config.hh 46-53). The stream `ss`
is the string written so far; `std::endl` writes a newline. The result is
`none` when a bound of the excerpt is not an iterator of the text. -/
def parse_error (key : String) (iter : _Iter) (lsize rsize : Nat) : Option String :=
  match iter.sub lsize, iter.add rsize with
  | some first, some last =>
    match string_of_range first last with
    | some excerpt =>
      let ss := ""
      let ss := ss ++ "ERROR [" ++ key ++ "]" ++ "\n"
      let ss := ss ++ "  \x2d\x2d> \x27" ++ excerpt ++ "\x27"
      some ss
    | none => none
  | _, _ => none

/-- The constructor `config_parse_exception(key, iter, lsize, rsize)`
(config.hh 40-43): a `runtime_error` whose message is `parse_error`. -/
def config_parse_exception.mk (key : String) (iter : _Iter) (lsize rsize : Nat) :
    Outcome config_exception :=
  match parse_error key iter lsize rsize with
  | some msg => Outcome.value (config_exception.config_parse_exception msg)
  | none => Outcome.undefined

/-- The same constructor with its default arguments `lsize = 12`,
`rsize = 12`. -/
def config_parse_exception.mk_default (key : String) (iter : _Iter) : Outcome config_exception :=
  config_parse_exception.mk key iter 12 12

/-! ## Typed values (config.hh 61-134) -/

/-- The enumeration `kwarg::TYPE`. -/
inductive TYPE where
  | FLOATING | INTEGRAL | STRING | SECTION | UNDEFINED | VECTOR
  deriving DecidableEq, Repr

/-- The class `kwarg`: two `const` members set by the constructor. -/
structure kwarg where
  _M_name : String
  _M_type : TYPE
  deriving DecidableEq, Repr

/-- The accessor `kwarg::name()`. -/
def kwarg.name (self : kwarg) : String := self._M_name

/-- The accessor `kwarg::type()`. -/
def kwarg.type (self : kwarg) : TYPE := self._M_type

/-- The union `__kwarg_const_union`, as its active member and that member's
value. -/
inductive kwarg_const_union where
  | integral (v : Int)
  | floating (f : Float)
  | str (s : String)

/-- The class `kwarg_const`: the `kwarg` base and the payload `_M_data`. -/
structure kwarg_const where
  toKwarg : kwarg
  _M_data : kwarg_const_union

/-- The accessor `name()` inherited from `kwarg`. -/
def kwarg_const.name (self : kwarg_const) : String := self.toKwarg.name

/-- The accessor `type()` inherited from `kwarg`. -/
def kwarg_const.type (self : kwarg_const) : TYPE := self.toKwarg.type

/-- Values of `int64_t`. -/
def isInt64 (v : Int) : Prop := -(2 : Int) ^ 63 ≤ v ∧ v < (2 : Int) ^ 63

instance (v : Int) : Decidable (isInt64 v) := by unfold isInt64; infer_instance

/-- The constructor `kwarg_const(int64_t data, std::string name)`: the base is
built with `kwarg::INTEGRAL`, then `_M_data.integral = data`. -/
def kwarg_const.of_int64 (data : Int) (name : String) : kwarg_const :=
  { toKwarg := { _M_name := name, _M_type := TYPE.INTEGRAL }
    _M_data := kwarg_const_union.integral data }

/-- The constructor `kwarg_const(double data, std::string name)`. -/
def kwarg_const.of_double (data : Float) (name : String) : kwarg_const :=
  { toKwarg := { _M_name := name, _M_type := TYPE.FLOATING }
    _M_data := kwarg_const_union.floating data }

/-- The constructor `kwarg_const(std::string data, std::string name)`: the
first argument is the payload, the second the name. -/
def kwarg_const.of_string (data : String) (name : String) : kwarg_const :=
  { toKwarg := { _M_name := name, _M_type := TYPE.STRING }
    _M_data := kwarg_const_union.str data }

/-- The fixed-width integer types of `<cstdint>`. -/
inductive FixedInt where
  | int8_t | uint8_t | int16_t | uint16_t | int32_t | uint32_t | int64_t | uint64_t
  deriving DecidableEq, Repr

/-- Width in bits. -/
def FixedInt.bits : FixedInt → Nat
  | int8_t => 8 | uint8_t => 8
  | int16_t => 16 | uint16_t => 16
  | int32_t => 32 | uint32_t => 32
  | int64_t => 64 | uint64_t => 64

/-- Signedness. -/
def FixedInt.is_signed : FixedInt → Bool
  | int8_t => true | int16_t => true | int32_t => true | int64_t => true
  | uint8_t => false | uint16_t => false | uint32_t => false | uint64_t => false

/-- Smallest value of the type. -/
def FixedInt.min (T : FixedInt) : Int :=
  if T.is_signed then -(2 : Int) ^ (T.bits - 1) else 0

/-- Largest value of the type. -/
def FixedInt.max (T : FixedInt) : Int :=
  if T.is_signed then (2 : Int) ^ (T.bits - 1) - 1 else (2 : Int) ^ T.bits - 1

/-- The types for which `std::is_integral` holds, as far as they are
embedded: `bool` and the fixed-width integers. -/
inductive IntegralType where
  | bool
  | fixed (T : FixedInt)
  deriving DecidableEq, Repr

/-- The conversion `static_cast<T>(v)` of an `int64_t` to a fixed-width integer type: the
low `bits` bits of `v`, read in two's complement when `T` is signed. -/
def static_cast_fixed (T : FixedInt) (v : Int) : Int :=
  let r := v % (2 : Int) ^ T.bits
  if T.is_signed = true ∧ (2 : Int) ^ (T.bits - 1) ≤ r then r - (2 : Int) ^ T.bits else r

/-- The conversion `static_cast<T>(v)` of an `int64_t` to an integral type; `bool` is
`v != 0`, written as 0 or 1. -/
def static_cast_integral (T : IntegralType) (v : Int) : Int :=
  match T with
  | IntegralType.bool => if v = 0 then 0 else 1
  | IntegralType.fixed T => static_cast_fixed T v

/-- The overload of `as<_Tp>()` for integral `_Tp` (config.hh 101-105): reads
`_M_data.integral`. -/
def kwarg_const.as_integral (T : IntegralType) (self : kwarg_const) : Outcome Int :=
  match self._M_data with
  | kwarg_const_union.integral v => Outcome.value (static_cast_integral T v)
  | _ => Outcome.undefined

/-- The overload of `as<_Tp>()` for floating `_Tp` (config.hh 107-111), at
`_Tp = double`: reads `_M_data.floating`. -/
def kwarg_const.as_double (self : kwarg_const) : Outcome Float :=
  match self._M_data with
  | kwarg_const_union.floating f => Outcome.value f
  | _ => Outcome.undefined

/-- The overload of `as<_Tp>()` for `_Tp = std::string` (config.hh 113-117):
reads `_M_data.str`. -/
def kwarg_const.as_string (self : kwarg_const) : Outcome String :=
  match self._M_data with
  | kwarg_const_union.str s => Outcome.value s
  | _ => Outcome.undefined

/-- The scalar types `as<_Tp>()` is embedded at. -/
inductive ScalarType where
  | integral (T : IntegralType)
  | double
  | string

/-- Values of a scalar type. -/
@[reducible]
def ScalarType.val : ScalarType → Type
  | integral _ => Int
  | double => Float
  | string => String

/-- The kind a leaf must have for the read of `as<_Tp>()` to hit the active
member. -/
def ScalarType.kind : ScalarType → TYPE
  | integral _ => TYPE.INTEGRAL
  | double => TYPE.FLOATING
  | string => TYPE.STRING

/-- The member template `as<_Tp>()`: overload resolution on `_Tp`. -/
def kwarg_const.as (T : ScalarType) (self : kwarg_const) : Outcome T.val :=
  match T with
  | ScalarType.integral I => self.as_integral I
  | ScalarType.double => self.as_double
  | ScalarType.string => self.as_string

/-! ## The public operations of a leaf -/

/-- The member functions a caller can invoke on a `kwarg_const`. Assignment,
copy and move are deleted in `kwarg` (config.hh 75-77), so these are all. -/
inductive kwarg_const.Method where
  | name
  | type
  | as (T : ScalarType)

/-- What a member function call hands back. -/
inductive kwarg_const.Result where
  | name (s : String)
  | type (t : TYPE)
  | scalar (T : ScalarType) (o : Outcome T.val)

/-- A call of a member function: its result and the object after the call.
All three are `const` member functions and write no member. -/
def kwarg_const.call (m : kwarg_const.Method) (self : kwarg_const) :
    kwarg_const.Result × kwarg_const :=
  match m with
  | kwarg_const.Method.name => (kwarg_const.Result.name self.name, self)
  | kwarg_const.Method.type => (kwarg_const.Result.type self.type, self)
  | kwarg_const.Method.as T => (kwarg_const.Result.scalar T (self.as T), self)

/-- The argument lists of the three constructors of `kwarg_const`. -/
inductive kwarg_const.Args where
  | int64 (data : Int) (name : String)
  | double (data : Float) (name : String)
  | string (data : String) (name : String)

/-- Construction of a `kwarg_const`: overload resolution on the first
argument. -/
def kwarg_const.construct : kwarg_const.Args → kwarg_const
  | kwarg_const.Args.int64 data name => kwarg_const.of_int64 data name
  | kwarg_const.Args.double data name => kwarg_const.of_double data name
  | kwarg_const.Args.string data name => kwarg_const.of_string data name

/-- The name argument of a constructor call. -/
def kwarg_const.Args.name : kwarg_const.Args → String
  | int64 _ name => name
  | double _ name => name
  | string _ name => name

/-- The kind that names the active member of the union. -/
def kwarg_const_union.active : kwarg_const_union → TYPE
  | integral _ => TYPE.INTEGRAL
  | floating _ => TYPE.FLOATING
  | str _ => TYPE.STRING

/-! ## Sections (config.hh 141-203) -/

/-- An object a `kwarg*` of `_M_kwargs` points to, by its dynamic class: a
leaf, or a nested section with its own base and children. -/
inductive kwarg_obj where
  | leaf (k : kwarg_const)
  | config_section (base : kwarg) (children : List (String × kwarg_obj))

/-- The class `config_section`: the `kwarg` base and the child mapping
`std::map<std::string, kwarg*> _M_kwargs` as its entries. -/
structure config_section where
  toKwarg : kwarg
  _M_kwargs : List (String × kwarg_obj)

/-- The lookup `std::map::find`: the entry stored under `key`, `none` for `end()`.
It does not change the map. -/
def map_find (m : List (String × kwarg_obj)) (key : String) : Option kwarg_obj :=
  match m with
  | [] => none
  | (k, v) :: rest => if k = key then some v else map_find rest key

/-- The downcast `static_cast<kwarg_const*>(p)`: defined when the object is a
`kwarg_const`; the cast itself checks nothing. -/
def static_cast_kwarg_const (p : kwarg_obj) : Outcome kwarg_const :=
  match p with
  | kwarg_obj.leaf k => Outcome.value k
  | kwarg_obj.config_section _ _ => Outcome.undefined

/-- The expression `static_cast<kwarg_const*>(_M_get_kwarg(key))->as<_Tp>()`, given the
outcome of the call of `_M_get_kwarg`: an exception of the lookup passes
through, otherwise the pointer is cast and `as<_Tp>()` is called. -/
def cast_and_convert (T : ScalarType) (looked_up : Outcome kwarg_obj) : Outcome T.val :=
  match looked_up with
  | Outcome.value p =>
    match static_cast_kwarg_const p with
    | Outcome.value k => k.as T
    | Outcome.raised e => Outcome.raised e
    | Outcome.undefined => Outcome.undefined
  | Outcome.raised e => Outcome.raised e
  | Outcome.undefined => Outcome.undefined

/-- The member template `config_section::get<_Tp>(key)` (config.hh 160-164): the result and the
section after the call. `_M_get_kwarg` is declared `const` (config.hh 190)
and its body is not in the header: it is the parameter `M_get_kwarg`, a
function of the section and the key. -/
def config_section.get (M_get_kwarg : config_section → String → Outcome kwarg_obj)
    (T : ScalarType) (key : String) (self : config_section) : Outcome T.val × config_section :=
  (cast_and_convert T (M_get_kwarg self key), self)

/-- The member template `config_section::get_default<_Tp, deflt>(key)`
(config.hh 166-177): the result and the section after the call. `deflt` is a
template argument of type `_Tp` (an integral `_Tp` in the C++ the header is
written in; the embedding states the body at every scalar type). -/
def config_section.get_default (M_get_kwarg : config_section → String → Outcome kwarg_obj)
    (T : ScalarType) (deflt : T.val) (key : String) (self : config_section) :
    Outcome T.val × config_section :=
  match map_find self._M_kwargs key with
  | none => (Outcome.value deflt, self)
  | some _ => (cast_and_convert T (M_get_kwarg self key), self)

/-- Modelled from the spec: the body of `config_section::_M_get_kwarg`, which
the header only declares. The spec has `get` look `key` up among the immediate
children and fail with `MissingKey` (`config_key_error`, carrying the key) when
it is absent; a present child is handed back as stored. -/
def config_section._M_get_kwarg (self : config_section) (key : String) : Outcome kwarg_obj :=
  match map_find self._M_kwargs key with
  | some p => Outcome.value p
  | none => Outcome.raised (config_exception.config_key_error key)

/-- The child `p` has a kind that does not match the requested type `T`: a
constructed leaf of another scalar kind, or a nested section. -/
inductive kind_mismatch (T : ScalarType) : kwarg_obj → Prop where
  | leaf (a : kwarg_const.Args) (h : (kwarg_const.construct a).type ≠ T.kind) :
      kind_mismatch T (kwarg_obj.leaf (kwarg_const.construct a))
  | config_section (base : kwarg) (children : List (String × kwarg_obj)) :
      kind_mismatch T (kwarg_obj.config_section base children)

/-- The excerpt in the words of the spec, to compare `parse_error` with: the
`lsize` characters before position `p` followed by the `rsize` characters
starting at `p`. -/
def spec_excerpt (text : String) (p lsize rsize : Nat) : String :=
  String.mk ((text.data.drop (p - lsize)).take lsize ++ (text.data.drop p).take rsize)

/-! ## Example data -/

/-- A section with an integer, a string and a floating leaf and one nested
section. -/
def sample_section : config_section :=
  { toKwarg := { _M_name := "root", _M_type := TYPE.SECTION }
    _M_kwargs :=
      [ ("count", kwarg_obj.leaf (kwarg_const.of_int64 42 "count")),
        ("label", kwarg_obj.leaf (kwarg_const.of_string "hi" "label")),
        ("ratio", kwarg_obj.leaf (kwarg_const.of_double 3.14 "ratio")),
        ("inner", kwarg_obj.config_section { _M_name := "inner", _M_type := TYPE.SECTION }
            [("b", kwarg_obj.leaf (kwarg_const.of_int64 1 "b"))]) ] }

/-! ## Lookups with a default -/

/-- C1: for every section, every key that is not among the section's children
and every default `d`, `get_default<T, d>(key)` returns exactly `d` and raises
no error, whatever `_M_get_kwarg` would do for that key. -/
theorem get_default_absent_returns_default
    (M_get_kwarg : config_section → String → Outcome kwarg_obj) (T : ScalarType) (d : T.val)
    (key : String) (s : config_section) (habsent : map_find s._M_kwargs key = none) :
    (s.get_default M_get_kwarg T d key).1 = Outcome.value d ∧
      ∀ e, (s.get_default M_get_kwarg T d key).1 ≠ Outcome.raised e := by
  have h : (s.get_default M_get_kwarg T d key).1 = Outcome.value d := by
    simp [config_section.get_default, habsent]
  refine ⟨h, ?_⟩
  intro e he
  rw [h] at he
  cases he

/-- Witness of C1: `get_default<int64_t, 7>("missing")` on the sample section
with the spec-modelled lookup. -/
theorem get_default_absent_returns_default_witness :
    map_find sample_section._M_kwargs "missing" = none ∧
      ((sample_section.get_default config_section._M_get_kwarg
          (ScalarType.integral (IntegralType.fixed FixedInt.int64_t)) (7 : Int) "missing").1
          = Outcome.value (7 : Int) ∧
        ∀ e, (sample_section.get_default config_section._M_get_kwarg
          (ScalarType.integral (IntegralType.fixed FixedInt.int64_t)) (7 : Int) "missing").1
          ≠ Outcome.raised e) :=
  ⟨by rfl, get_default_absent_returns_default config_section._M_get_kwarg
      (ScalarType.integral (IntegralType.fixed FixedInt.int64_t)) (7 : Int) "missing"
      sample_section (by rfl)⟩

/-- C2: for every section, every key among the section's children, every
default `d` and every requested type `T`, `get_default<T, d>(key)` has the
same outcome as `get<T>(key)` (the same value, or the same failure) and leaves
the same section, and the outcome does not depend on the default supplied. -/
theorem get_default_present_eq_get
    (M_get_kwarg : config_section → String → Outcome kwarg_obj) (T : ScalarType) (d : T.val)
    (key : String) (s : config_section) (hpresent : (map_find s._M_kwargs key).isSome = true) :
    s.get_default M_get_kwarg T d key = s.get M_get_kwarg T key ∧
      ∀ d2 : T.val, s.get_default M_get_kwarg T d2 key = s.get_default M_get_kwarg T d key := by
  cases hfind : map_find s._M_kwargs key with
  | none => rw [hfind] at hpresent; cases hpresent
  | some p =>
    constructor
    · simp [config_section.get_default, config_section.get, hfind]
    · intro d2
      simp [config_section.get_default, hfind]

/-- Witness of C2: `get_default<int64_t, 7>("count")` on the sample section. -/
theorem get_default_present_eq_get_witness :
    (map_find sample_section._M_kwargs "count").isSome = true ∧
      (sample_section.get_default config_section._M_get_kwarg
          (ScalarType.integral (IntegralType.fixed FixedInt.int64_t)) (7 : Int) "count" =
        sample_section.get config_section._M_get_kwarg
          (ScalarType.integral (IntegralType.fixed FixedInt.int64_t)) "count" ∧
      ∀ d2 : Int, sample_section.get_default config_section._M_get_kwarg
          (ScalarType.integral (IntegralType.fixed FixedInt.int64_t)) d2 "count" =
        sample_section.get_default config_section._M_get_kwarg
          (ScalarType.integral (IntegralType.fixed FixedInt.int64_t)) (7 : Int) "count") :=
  ⟨by decide, get_default_present_eq_get config_section._M_get_kwarg
      (ScalarType.integral (IntegralType.fixed FixedInt.int64_t)) (7 : Int) "count"
      sample_section (by decide)⟩

/-! ## Leaves -/

/-- On `int64_t` values the conversion to `int64_t` changes nothing. -/
theorem static_cast_int64_id (v : Int) (hv : isInt64 v) :
    static_cast_fixed FixedInt.int64_t v = v := by
  obtain ⟨hlo, hhi⟩ := hv
  simp only [static_cast_fixed, FixedInt.bits, FixedInt.is_signed]
  norm_num at hlo hhi ⊢
  split_ifs <;> omega

/-- C3: a leaf converted at the type it was built from gives back its payload:
for every `int64_t` value `v`, string `s`, double `f` and name `n`,
`kwarg_const(v, n).as<int64_t>()` is `v`, `kwarg_const(s, n).as<std::string>()`
is `s` and `kwarg_const(f, n).as<double>()` is `f`; the second constructor
argument is the name, not the payload. -/
theorem as_roundtrip (v : Int) (s : String) (f : Float) (n : String) (hv : isInt64 v) :
    (kwarg_const.of_int64 v n).as (ScalarType.integral (IntegralType.fixed FixedInt.int64_t))
        = Outcome.value v ∧
      (kwarg_const.of_string s n).as ScalarType.string = Outcome.value s ∧
      (kwarg_const.of_double f n).as ScalarType.double = Outcome.value f ∧
      (kwarg_const.of_string s n).name = n := by
  refine ⟨?_, rfl, rfl, rfl⟩
  show Outcome.value (static_cast_fixed FixedInt.int64_t v) = Outcome.value v
  rw [static_cast_int64_id v hv]

/-- Witness of C3 at `42`, `"hi"`, `3.14` and the name `"x"`. -/
theorem as_roundtrip_witness :
    isInt64 42 ∧
      ((kwarg_const.of_int64 42 "x").as (ScalarType.integral (IntegralType.fixed FixedInt.int64_t))
          = Outcome.value 42 ∧
        (kwarg_const.of_string "hi" "x").as ScalarType.string = Outcome.value "hi" ∧
        (kwarg_const.of_double 3.14 "x").as ScalarType.double = Outcome.value 3.14 ∧
        (kwarg_const.of_string "hi" "x").name = "x") :=
  ⟨by decide, as_roundtrip 42 "hi" 3.14 "x" (by decide)⟩

/-- A member function call leaves the object as it was. -/
theorem call_snd (m : kwarg_const.Method) (k : kwarg_const) : (k.call m).2 = k := by
  cases m <;> rfl

/-- So does any sequence of member function calls. -/
theorem calls_foldl (ms : List kwarg_const.Method) (k : kwarg_const) :
    ms.foldl (fun o m => (o.call m).2) k = k := by
  induction ms with
  | nil => rfl
  | cons m rest ih =>
    rw [List.foldl_cons, call_snd]
    exact ih

/-- C4: for every constructor call of `kwarg_const`, `type()` is INTEGRAL
exactly when the payload passed is an `int64_t`, FLOATING exactly when it is a
`double` and STRING exactly when it is a string; the kind names the active
member of the payload union and is never SECTION, VECTOR or UNDEFINED;
`name()` is the name passed; and after any sequence of member function calls
name and kind are what they were. -/
theorem leaf_kind_agrees (a : kwarg_const.Args) :
    ((kwarg_const.construct a).type = TYPE.INTEGRAL ↔ ∃ v n, a = kwarg_const.Args.int64 v n) ∧
      ((kwarg_const.construct a).type = TYPE.FLOATING ↔ ∃ f n, a = kwarg_const.Args.double f n) ∧
      ((kwarg_const.construct a).type = TYPE.STRING ↔ ∃ s n, a = kwarg_const.Args.string s n) ∧
      (kwarg_const.construct a)._M_data.active = (kwarg_const.construct a).type ∧
      (kwarg_const.construct a).type ≠ TYPE.SECTION ∧
      (kwarg_const.construct a).type ≠ TYPE.VECTOR ∧
      (kwarg_const.construct a).type ≠ TYPE.UNDEFINED ∧
      (kwarg_const.construct a).name = a.name ∧
      ∀ ms : List kwarg_const.Method,
        (ms.foldl (fun o m => (o.call m).2) (kwarg_const.construct a)).name = a.name ∧
        (ms.foldl (fun o m => (o.call m).2) (kwarg_const.construct a)).type
          = (kwarg_const.construct a).type := by
  have hname : (kwarg_const.construct a).name = a.name := by cases a <;> rfl
  refine ⟨?_, ?_, ?_, ?_, ?_, ?_, ?_, hname, ?_⟩
  · cases a with
    | int64 v n => exact ⟨fun _ => ⟨v, n, rfl⟩, fun _ => rfl⟩
    | double f n => exact ⟨fun h => (by cases h), fun ⟨_, _, h⟩ => (by cases h)⟩
    | string s n => exact ⟨fun h => (by cases h), fun ⟨_, _, h⟩ => (by cases h)⟩
  · cases a with
    | int64 v n => exact ⟨fun h => (by cases h), fun ⟨_, _, h⟩ => (by cases h)⟩
    | double f n => exact ⟨fun _ => ⟨f, n, rfl⟩, fun _ => rfl⟩
    | string s n => exact ⟨fun h => (by cases h), fun ⟨_, _, h⟩ => (by cases h)⟩
  · cases a with
    | int64 v n => exact ⟨fun h => (by cases h), fun ⟨_, _, h⟩ => (by cases h)⟩
    | double f n => exact ⟨fun h => (by cases h), fun ⟨_, _, h⟩ => (by cases h)⟩
    | string s n => exact ⟨fun _ => ⟨s, n, rfl⟩, fun _ => rfl⟩
  · cases a <;> rfl
  · cases a <;> intro h <;> cases h
  · cases a <;> intro h <;> cases h
  · cases a <;> intro h <;> cases h
  · intro ms
    rw [calls_foldl]
    exact ⟨hname, rfl⟩

/-- The conversion to a fixed-width type lands in the type and keeps the
residue modulo `2 ^ bits`. -/
theorem static_cast_fixed_spec (T : FixedInt) (v : Int) :
    static_cast_fixed T v % (2 : Int) ^ T.bits = v % (2 : Int) ^ T.bits ∧
      T.min ≤ static_cast_fixed T v ∧ static_cast_fixed T v ≤ T.max := by
  cases T <;>
    simp only [static_cast_fixed, FixedInt.bits, FixedInt.is_signed, FixedInt.min, FixedInt.max] <;>
    norm_num <;> (try split_ifs) <;> omega

/-- C9: for every INTEGRAL leaf holding `v` and every fixed-width integer type
`T` of `w` bits, `as<T>()` returns, with no error, the value of `T` congruent
to `v` modulo `2 ^ w`; it equals `v` exactly when `v` is representable in `T`.
A leaf holding `2 ^ 32 + 5` gives `5` for `as<int32_t>()`. -/
theorem as_integral_narrowing (v : Int) (n : String) (T : FixedInt) :
    (kwarg_const.of_int64 v n).as_integral (IntegralType.fixed T)
        = Outcome.value (static_cast_fixed T v) ∧
      static_cast_fixed T v % (2 : Int) ^ T.bits = v % (2 : Int) ^ T.bits ∧
      T.min ≤ static_cast_fixed T v ∧ static_cast_fixed T v ≤ T.max ∧
      (static_cast_fixed T v = v ↔ T.min ≤ v ∧ v ≤ T.max) ∧
      (kwarg_const.of_int64 (2 ^ 32 + 5) n).as_integral (IntegralType.fixed FixedInt.int32_t)
        = Outcome.value 5 := by
  obtain ⟨hmod, hlo, hhi⟩ := static_cast_fixed_spec T v
  refine ⟨rfl, hmod, hlo, hhi, ?_, ?_⟩
  · constructor
    · intro h
      rw [h] at hlo hhi
      exact ⟨hlo, hhi⟩
    · rintro ⟨h1, h2⟩
      revert h1 h2
      cases T <;>
        simp only [static_cast_fixed, FixedInt.bits, FixedInt.is_signed, FixedInt.min,
          FixedInt.max] <;>
        norm_num <;> intro h1 h2 <;> (try split_ifs) <;> omega
  · show Outcome.value (static_cast_fixed FixedInt.int32_t (2 ^ 32 + 5)) = Outcome.value 5
    have : static_cast_fixed FixedInt.int32_t (2 ^ 32 + 5) = 5 := by decide
    rw [this]

/-! ## Lookups -/

/-- Counterexample to C5: `as<int64_t>()` on the STRING leaf
`kwarg_const("hi", "k")` is a kind mismatch, and the call raises no
exception at all: it reads the inactive member `integral` of the union. -/
theorem as_mismatch_not_raised :
    (kwarg_const.of_string "hi" "k").type
        ≠ (ScalarType.integral (IntegralType.fixed FixedInt.int64_t)).kind ∧
      (kwarg_const.of_string "hi" "k").as
          (ScalarType.integral (IntegralType.fixed FixedInt.int64_t)) = Outcome.undefined ∧
      ¬ ∃ e, (kwarg_const.of_string "hi" "k").as
          (ScalarType.integral (IntegralType.fixed FixedInt.int64_t)) = Outcome.raised e := by
  refine ⟨by decide, rfl, ?_⟩
  rintro ⟨e, he⟩
  cases he

/-- C5 (amended): when the child stored under `key` has a kind that does not
match `T` and the lookup hands that child back, `get<T>(key)` (and `as<T>()`
on that leaf) checks nothing and raises no error: the behaviour is undefined
(the inactive union member is read, or a section is cast to a leaf), so
neither an exception nor a defined value comes back. -/
theorem get_kind_mismatch_unchecked
    (M_get_kwarg : config_section → String → Outcome kwarg_obj) (T : ScalarType)
    (key : String) (s : config_section) (p : kwarg_obj)
    (hlook : M_get_kwarg s key = Outcome.value p) (hmis : kind_mismatch T p) :
    (s.get M_get_kwarg T key).1 = Outcome.undefined ∧
      (∀ e, (s.get M_get_kwarg T key).1 ≠ Outcome.raised e) ∧
      (∀ x, (s.get M_get_kwarg T key).1 ≠ Outcome.value x) ∧
      ∀ k, p = kwarg_obj.leaf k → k.as T = Outcome.undefined := by
  have hleaf : ∀ k, p = kwarg_obj.leaf k → k.as T = Outcome.undefined := by
    intro k hk
    cases hmis with
    | leaf a h =>
      cases hk
      cases a <;> cases T <;> first | rfl | exact absurd rfl h
    | config_section base children => cases hk
  have hget : (s.get M_get_kwarg T key).1 = Outcome.undefined := by
    simp only [config_section.get, hlook, cast_and_convert]
    cases p with
    | leaf k => simp only [static_cast_kwarg_const, hleaf k rfl]
    | config_section base children => simp only [static_cast_kwarg_const]
  refine ⟨hget, ?_, ?_, hleaf⟩
  · intro e he
    rw [hget] at he
    cases he
  · intro x hx
    rw [hget] at hx
    cases hx

/-- Witness of C5 (amended): `get<int64_t>("label")` on the sample section,
whose child `label` is a STRING leaf. -/
theorem get_kind_mismatch_unchecked_witness :
    (sample_section.get config_section._M_get_kwarg
          (ScalarType.integral (IntegralType.fixed FixedInt.int64_t)) "label").1
        = Outcome.undefined ∧
      (∀ e, (sample_section.get config_section._M_get_kwarg
          (ScalarType.integral (IntegralType.fixed FixedInt.int64_t)) "label").1
        ≠ Outcome.raised e) ∧
      (∀ x, (sample_section.get config_section._M_get_kwarg
          (ScalarType.integral (IntegralType.fixed FixedInt.int64_t)) "label").1
        ≠ Outcome.value x) ∧
      ∀ k, kwarg_obj.leaf (kwarg_const.construct (kwarg_const.Args.string "hi" "label"))
          = kwarg_obj.leaf k →
        k.as (ScalarType.integral (IntegralType.fixed FixedInt.int64_t)) = Outcome.undefined :=
  get_kind_mismatch_unchecked config_section._M_get_kwarg
    (ScalarType.integral (IntegralType.fixed FixedInt.int64_t)) "label" sample_section
    (kwarg_obj.leaf (kwarg_const.construct (kwarg_const.Args.string "hi" "label")))
    (by rfl)
    (kind_mismatch.leaf (kwarg_const.Args.string "hi" "label") (by decide))

/-- C6: with the lookup the spec describes, `get<T>(key)` on a key that is not
among the section's immediate children fails with `config_key_error` carrying
the key and returns no value; on a key stored with a leaf whose kind matches
`T` it does not fail and returns what `as<T>()` returns on that leaf. -/
theorem get_missing_key (T : ScalarType) (s : config_section) :
    (∀ key, map_find s._M_kwargs key = none →
        (s.get config_section._M_get_kwarg T key).1
          = Outcome.raised (config_exception.config_key_error key)) ∧
      (∀ key a, map_find s._M_kwargs key = some (kwarg_obj.leaf (kwarg_const.construct a)) →
        (kwarg_const.construct a).type = T.kind →
        ∃ x, (s.get config_section._M_get_kwarg T key).1 = Outcome.value x ∧
          (kwarg_const.construct a).as T = Outcome.value x) := by
  constructor
  · intro key habsent
    simp only [config_section.get, config_section._M_get_kwarg, habsent, cast_and_convert]
  · intro key a hpresent hkind
    have hget : (s.get config_section._M_get_kwarg T key).1 = (kwarg_const.construct a).as T := by
      simp only [config_section.get, config_section._M_get_kwarg, hpresent, cast_and_convert,
        static_cast_kwarg_const]
    rw [hget]
    cases a <;> cases T <;> first | exact ⟨_, rfl, rfl⟩ | cases hkind

/-- Witness of C6 on the sample section: `"missing"` is absent, `"count"`
holds an INTEGRAL leaf. -/
theorem get_missing_key_witness :
    (sample_section.get config_section._M_get_kwarg
          (ScalarType.integral (IntegralType.fixed FixedInt.int64_t)) "missing").1
        = Outcome.raised (config_exception.config_key_error "missing") ∧
      ∃ x, (sample_section.get config_section._M_get_kwarg
          (ScalarType.integral (IntegralType.fixed FixedInt.int64_t)) "count").1
          = Outcome.value x ∧
        (kwarg_const.construct (kwarg_const.Args.int64 42 "count")).as
          (ScalarType.integral (IntegralType.fixed FixedInt.int64_t)) = Outcome.value x :=
  ⟨(get_missing_key (ScalarType.integral (IntegralType.fixed FixedInt.int64_t))
      sample_section).1 "missing" (by rfl),
   (get_missing_key (ScalarType.integral (IntegralType.fixed FixedInt.int64_t))
      sample_section).2 "count" (kwarg_const.Args.int64 42 "count") (by rfl) (by rfl)⟩

/-- C8: `get<T>(key)` and `get_default<T, d>(key)` leave the section, and so
its child mapping, exactly as it was, whether they return or fail; in
particular a lookup of an absent key inserts no entry for it. -/
theorem lookups_read_only
    (M_get_kwarg : config_section → String → Outcome kwarg_obj) (T : ScalarType)
    (d : T.val) (key : String) (s : config_section) :
    (s.get M_get_kwarg T key).2 = s ∧
      (s.get_default M_get_kwarg T d key).2 = s ∧
      (s.get M_get_kwarg T key).2._M_kwargs = s._M_kwargs ∧
      (s.get_default M_get_kwarg T d key).2._M_kwargs = s._M_kwargs ∧
      map_find (s.get M_get_kwarg T key).2._M_kwargs key = map_find s._M_kwargs key ∧
      map_find (s.get_default M_get_kwarg T d key).2._M_kwargs key = map_find s._M_kwargs key := by
  have h1 : (s.get M_get_kwarg T key).2 = s := rfl
  have h2 : (s.get_default M_get_kwarg T d key).2 = s := by
    unfold config_section.get_default
    cases map_find s._M_kwargs key <;> rfl
  rw [h1, h2]
  exact ⟨rfl, rfl, rfl, rfl, rfl, rfl⟩

/-! ## Parse diagnostics -/

/-- Inside the text the range read by `parse_error` is the excerpt of the
spec. -/
theorem range_eq_spec_excerpt (l : List Char) (p lsize rsize : Nat) (hl : lsize ≤ p) :
    (l.drop (p - lsize)).take (p + rsize - (p - lsize))
      = (l.drop (p - lsize)).take lsize ++ (l.drop p).take rsize := by
  have h1 : p + rsize - (p - lsize) = lsize + rsize := by omega
  have h2 : p - lsize + lsize = p := by omega
  rw [h1, List.take_add, List.drop_drop, h2]

/-- A size below `2 ^ 63` converts to itself. -/
theorem to_difference_type_of_lt (n : Nat) (hn : n < 2 ^ 63) :
    to_difference_type n = (n : Int) := by
  unfold to_difference_type
  norm_num at hn ⊢
  omega

/-- For a size below `2 ^ 63`, `iter - n` moves back by `n` characters. -/
theorem iter_sub_of_lt (it : _Iter) (n : Nat) (hn : n < 2 ^ 63) :
    it.sub n = if n ≤ it.pos ∧ it.pos - n ≤ it.text.length then
      some { text := it.text, pos := it.pos - n } else none := by
  unfold _Iter.sub
  rw [to_difference_type_of_lt n hn]
  by_cases h : n ≤ it.pos ∧ it.pos - n ≤ it.text.length
  · have h1 : (0 : Int) ≤ (it.pos : Int) - (n : Int) ∧
        (it.pos : Int) - (n : Int) ≤ (it.text.length : Int) := by omega
    have h2 : ((it.pos : Int) - (n : Int)).toNat = it.pos - n := by omega
    simp only [h1, h, and_self, if_true, h2]
  · have h1 : ¬ ((0 : Int) ≤ (it.pos : Int) - (n : Int) ∧
        (it.pos : Int) - (n : Int) ≤ (it.text.length : Int)) := by omega
    simp only [h1, h, if_false]

/-- For a size below `2 ^ 63`, `iter + n` moves forward by `n` characters. -/
theorem iter_add_of_lt (it : _Iter) (n : Nat) (hn : n < 2 ^ 63) :
    it.add n = if it.pos + n ≤ it.text.length then
      some { text := it.text, pos := it.pos + n } else none := by
  unfold _Iter.add
  rw [to_difference_type_of_lt n hn]
  by_cases h : it.pos + n ≤ it.text.length
  · have h1 : (0 : Int) ≤ (it.pos : Int) + (n : Int) ∧
        (it.pos : Int) + (n : Int) ≤ (it.text.length : Int) := by omega
    have h2 : ((it.pos : Int) + (n : Int)).toNat = it.pos + n := by omega
    simp only [h1, h, and_self, if_true, h2]
  · have h1 : ¬ ((0 : Int) ≤ (it.pos : Int) + (n : Int) ∧
        (it.pos : Int) + (n : Int) ≤ (it.text.length : Int)) := by omega
    simp only [h1, h, if_false]

/-- The value of `parse_error` when both sizes are below `2 ^ 63` and both
bounds are inside the text. -/
theorem parse_error_eq (key text : String) (p lsize rsize : Nat)
    (hls : lsize < 2 ^ 63) (hrs : rsize < 2 ^ 63)
    (hl : lsize ≤ p) (hr : p + rsize ≤ text.length) :
    parse_error key { text := text, pos := p } lsize rsize
      = some ("ERROR [" ++ key ++ "]" ++ "\n" ++ "  \x2d\x2d> \x27"
          ++ spec_excerpt text p lsize rsize ++ "\x27") := by
  have h1 : p - lsize ≤ text.length := by omega
  have h2 : p - lsize ≤ p + rsize := by omega
  simp only [parse_error, iter_sub_of_lt _ lsize hls, iter_add_of_lt _ rsize hrs,
    string_of_range, spec_excerpt, hl, hr, h1, h2,
    and_self, if_true, String.empty_append, range_eq_spec_excerpt text.data p lsize rsize hl]

/-- When both sizes are below `2 ^ 63` and a bound is outside the text,
`parse_error` has no value. -/
theorem parse_error_none (key text : String) (p lsize rsize : Nat)
    (hls : lsize < 2 ^ 63) (hrs : rsize < 2 ^ 63)
    (h : ¬ (lsize ≤ p ∧ p + rsize ≤ text.length)) :
    parse_error key { text := text, pos := p } lsize rsize = none := by
  unfold parse_error
  rw [iter_sub_of_lt _ lsize hls, iter_add_of_lt _ rsize hrs]
  by_cases hl : lsize ≤ p
  · have hr : ¬ p + rsize ≤ text.length := fun hr => h ⟨hl, hr⟩
    simp only [hr, if_false]
    split <;> simp_all
  · simp only [hl, false_and, if_false]

/-- C7: for every key, every text (a `std::string`, so shorter than `2 ^ 63`
characters) and every cursor position `p` with `lsize <= p` and
`p + rsize <= length(text)`, the message of
`config_parse_exception(key, cursor, lsize, rsize)` is exactly
`"ERROR [" + key + "]"`, a newline, `"  --> '"`, the characters
`text[p - lsize, p + rsize)` and `"'"`; the excerpt has `lsize + rsize`
characters, the `lsize` before the cursor and the `rsize` starting at it, and
the defaults are 12 and 12. -/
theorem parse_error_message (key text : String) (p lsize rsize : Nat)
    (htext : text.length < 2 ^ 63)
    (hl : lsize ≤ p) (hr : p + rsize ≤ text.length) :
    config_parse_exception.mk key { text := text, pos := p } lsize rsize
        = Outcome.value (config_exception.config_parse_exception
            ("ERROR [" ++ key ++ "]" ++ "\n" ++ "  \x2d\x2d> \x27"
              ++ spec_excerpt text p lsize rsize ++ "\x27")) ∧
      (spec_excerpt text p lsize rsize).length = lsize + rsize ∧
      (∀ i, i < lsize + rsize →
        (spec_excerpt text p lsize rsize).data[i]? = text.data[p - lsize + i]?) ∧
      config_parse_exception.mk_default key { text := text, pos := p }
        = config_parse_exception.mk key { text := text, pos := p } 12 12 := by
  have hlen : text.data.length = text.length := rfl
  have hls : lsize < 2 ^ 63 := by omega
  have hrs : rsize < 2 ^ 63 := by omega
  refine ⟨?_, ?_, ?_, rfl⟩
  · simp only [config_parse_exception.mk, parse_error_eq key text p lsize rsize hls hrs hl hr]
  · simp only [spec_excerpt, String.length_mk, List.length_append, List.length_take,
      List.length_drop]
    omega
  · intro i hi
    have hrange := range_eq_spec_excerpt text.data p lsize rsize hl
    have h1 : p + rsize - (p - lsize) = lsize + rsize := by omega
    simp only [spec_excerpt]
    rw [← hrange, h1, List.getElem?_take_of_lt hi, List.getElem?_drop]

/-- Witness of C7 with the default sizes: the cursor at position 12 of a text
of 26 characters, the excerpt being its first 24. -/
theorem parse_error_message_witness :
    config_parse_exception.mk "port" { text := "abcdefghijklmnopqrstuvwxyz", pos := 12 } 12 12
        = Outcome.value (config_exception.config_parse_exception
            ("ERROR [" ++ "port" ++ "]" ++ "\n" ++ "  \x2d\x2d> \x27"
              ++ spec_excerpt "abcdefghijklmnopqrstuvwxyz" 12 12 12 ++ "\x27")) ∧
      (spec_excerpt "abcdefghijklmnopqrstuvwxyz" 12 12 12).length = 12 + 12 ∧
      (∀ i, i < 12 + 12 →
        (spec_excerpt "abcdefghijklmnopqrstuvwxyz" 12 12 12).data[i]?
          = ("abcdefghijklmnopqrstuvwxyz" : String).data[12 - 12 + i]?) ∧
      config_parse_exception.mk_default "port"
          { text := "abcdefghijklmnopqrstuvwxyz", pos := 12 }
        = config_parse_exception.mk "port"
          { text := "abcdefghijklmnopqrstuvwxyz", pos := 12 } 12 12 :=
  parse_error_message "port" "abcdefghijklmnopqrstuvwxyz" 12 12 12 (by decide) (by decide)
    (by decide)

/-- Counterexample to C10: in the text `"abcdefghij"` with the cursor at
position 5, `lsize = 2 ^ 64 - 1` (`SIZE_MAX`) and `rsize = 3`, the size
`lsize` converts to the offset `-1`, so the range read is `[6, 8)`, inside the
text, and `parse_error` has the message with the excerpt `gh`, although
`lsize <= p` fails. -/
theorem parse_error_wrapped_lsize :
    parse_error "k" { text := "abcdefghij", pos := 5 } (2 ^ 64 - 1) 3
        = some ("ERROR [k]" ++ "\n" ++ "  \x2d\x2d> \x27" ++ "gh" ++ "\x27") ∧
      (parse_error "k" { text := "abcdefghij", pos := 5 } (2 ^ 64 - 1) 3).isSome = true ∧
      ¬ (2 ^ 64 - 1 ≤ 5 ∧ 5 + 3 ≤ ("abcdefghij" : String).length) := by
  refine ⟨by decide, by decide, by decide⟩

/-- C10 (amended): the excerpt window is not clamped to the text: for sizes
below `2 ^ 63`, the ones the iterator's signed difference type holds
unchanged, `parse_error(key, cursor at p, lsize, rsize)` has a message exactly
when `lsize <= p` and `p + rsize <= length(text)`. With the default sizes 12
and 12 there is none exactly when the cursor is fewer than 12 characters from
the start of the text or fewer than 12 before its end, as for a failure at the
end of the input. -/
theorem parse_error_window_unclamped (key text : String) (p lsize rsize : Nat)
    (hlsize : lsize < 2 ^ 63) (hrsize : rsize < 2 ^ 63) :
    ((parse_error key { text := text, pos := p } lsize rsize).isSome = true
        ↔ lsize ≤ p ∧ p + rsize ≤ text.length) ∧
      (parse_error key { text := text, pos := p } 12 12 = none
        ↔ p < 12 ∨ text.length < p + 12) ∧
      (config_parse_exception.mk_default key { text := text, pos := p } = Outcome.undefined
        ↔ p < 12 ∨ text.length < p + 12) ∧
      parse_error key { text := text, pos := text.length } 12 12 = none := by
  have h12 : 12 < 2 ^ 63 := by norm_num
  have hiff : ∀ l r, l < 2 ^ 63 → r < 2 ^ 63 →
      ((parse_error key { text := text, pos := p } l r).isSome = true
        ↔ l ≤ p ∧ p + r ≤ text.length) := by
    intro l r hls hrs
    constructor
    · intro h
      by_contra hn
      rw [parse_error_none key text p l r hls hrs hn] at h
      cases h
    · rintro ⟨h1, h2⟩
      rw [parse_error_eq key text p l r hls hrs h1 h2]
      rfl
  have hdef : parse_error key { text := text, pos := p } 12 12 = none
      ↔ p < 12 ∨ text.length < p + 12 := by
    constructor
    · intro h
      by_contra hn
      have h2 : (parse_error key { text := text, pos := p } 12 12).isSome = true :=
        (hiff 12 12 h12 h12).2 ⟨by omega, by omega⟩
      rw [h] at h2
      cases h2
    · intro h
      exact parse_error_none key text p 12 12 h12 h12 (by omega)
  refine ⟨hiff lsize rsize hlsize hrsize, hdef, ?_, ?_⟩
  · rw [← hdef]
    unfold config_parse_exception.mk_default config_parse_exception.mk
    cases parse_error key { text := text, pos := p } 12 12 with
    | none => exact ⟨fun _ => rfl, fun _ => rfl⟩
    | some msg => exact ⟨fun h => (by cases h), fun h => (by cases h)⟩
  · exact parse_error_none key text text.length 12 12 h12 h12 (by omega)

/-- Witness of C10 (amended): the text `"abcdefghij"` with the cursor at
position 5 and the sizes 2 and 3. -/
theorem parse_error_window_unclamped_witness :
    ((parse_error "k" { text := "abcdefghij", pos := 5 } 2 3).isSome = true
        ↔ 2 ≤ 5 ∧ 5 + 3 ≤ ("abcdefghij" : String).length) ∧
      (parse_error "k" { text := "abcdefghij", pos := 5 } 12 12 = none
        ↔ 5 < 12 ∨ ("abcdefghij" : String).length < 5 + 12) ∧
      (config_parse_exception.mk_default "k" { text := "abcdefghij", pos := 5 }
          = Outcome.undefined
        ↔ 5 < 12 ∨ ("abcdefghij" : String).length < 5 + 12) ∧
      parse_error "k" { text := "abcdefghij", pos := ("abcdefghij" : String).length } 12 12
        = none :=
  parse_error_window_unclamped "k" "abcdefghij" 5 2 3 (by decide) (by decide)

end AppConfig
